import Mathlib

/-!
Verification of the AHTx0 sensor driver (src/lib.rs).

The driver talks to an I2C bus through `embedded_hal` `write`/`read` calls and a
millisecond delay primitive.  We embed it by making the bus an oracle
`Bus : Nat → Reply` giving the outcome of the k-th bus transaction (writes and
reads alike, in program order), threading the transaction counter `k` through
the driver functions, and recording every externally visible step (each bus
transaction with its outcome, and each delay) in a trace of `Event`s.

Bytes are `Nat` values; the u8 buffers the Rust code reads into are modelled by
reducing each supplied byte modulo 256 (the buffer is u8) and by padding a short
reply with 0 (the Rust buffers are zero-initialised).  The u32 shift/or
arithmetic of the decoder never reaches 2^32 (all codes are below 2^20), so
plain `Nat` arithmetic is an exact model of it.

The decoder produces `f64` values.  Every floating-point operation it performs
is exact: `raw / 2^20` is a power-of-two scaling of a 20-bit integer, the
products `raw * 100` and `raw * 200` and the difference `... - 50` all fit well
inside the 53-bit mantissa of `f64`.  Hence `ℚ` is an exact model of the
decoder arithmetic and we use it for the measurement fields.
-/

deriving instance DecidableEq for Except

/-- Outcome of one bus transaction, as supplied by the environment: either the
device answers (for a read, with the bytes placed on the bus; for a write the
byte list is ignored), or the transaction fails with a bus error code. -/
inductive Reply where
  | ok (bytes : List Nat)
  | nack (e : Nat)
deriving DecidableEq

/-- The bus environment: the outcome of the k-th bus transaction. -/
abbrev Bus := Nat → Reply

/-- Externally visible steps of the driver: a write of `data` to `addr` with
its outcome, a read of `n` bytes from `addr` with its outcome (the effective
buffer contents on success), or a blocking delay of `ms` milliseconds. -/
inductive Event where
  | writeE (addr : Nat) (data : List Nat) (r : Except Nat Unit)
  | readE (addr : Nat) (n : Nat) (r : Except Nat (List Nat))
  | delayE (ms : Nat)
deriving DecidableEq

/-- `InternalError` from src/lib.rs: the I2c variant carries the underlying
bus error (modelled as its error code). -/
inductive InternalError where
  | i2c (e : Nat)
  | calibrationFailed
  | sensorStillBusy
deriving DecidableEq

/-- `SensorReading` from src/lib.rs (`#[repr(C)]` struct with two f64 fields
and an i32 status code).  The f64 fields are modelled by `ℚ`, exactly. -/
structure SensorReading where
  temperature : ℚ
  humidity : ℚ
  status_code : Int
deriving DecidableEq

/-- `RawSensorData` from src/lib.rs: the decoded measurement. -/
structure RawSensorData where
  temperature : ℚ
  humidity : ℚ
deriving DecidableEq

/-- `RawSensorData::from_raw_bytes`: decode the 6-byte raw sample.  Byte `i`
is `data.getD i 0`; the u32 shift/mask/or arithmetic of the source is exact
`Nat` arithmetic (no value reaches 2^32), and the f64 arithmetic is exact in
`ℚ` as explained above. -/
def RawSensorData.from_raw_bytes (data : List Nat) : RawSensorData :=
  let raw_humidity : Nat :=
    ((data.getD 1 0) <<< 12) ||| ((data.getD 2 0) <<< 4) ||| ((data.getD 3 0) >>> 4)
  let raw_temp : Nat :=
    (((data.getD 3 0) &&& 0x0F) <<< 16) ||| ((data.getD 4 0) <<< 8) ||| (data.getD 5 0)
  { temperature := ((raw_temp : ℚ) / 2 ^ 20) * 200 - 50
    humidity := ((raw_humidity : ℚ) / 2 ^ 20) * 100 }

/-- The contents a Rust `[0u8; n]` buffer holds after a bus read that supplied
`bytes`: byte `i` of the buffer, reduced to u8, with the zero initialisation
surviving where the reply is short. -/
def padRead (n : Nat) (bytes : List Nat) : List Nat :=
  (List.range n).map (fun i => bytes.getD i 0 % 256)

/-- `self.i2c.write(addr, data)`: one bus transaction.  Returns the result,
the recorded event and the next transaction index. -/
def i2cWrite (bus : Bus) (addr : Nat) (k : Nat) (data : List Nat) :
    Except Nat Unit × Event × Nat :=
  match bus k with
  | .ok _ => (.ok (), .writeE addr data (.ok ()), k + 1)
  | .nack e => (.error e, .writeE addr data (.error e), k + 1)

/-- `self.i2c.read(addr, buffer)` for an `n`-byte buffer: one bus transaction.
On success the event records the effective buffer contents. -/
def i2cRead (bus : Bus) (addr : Nat) (k : Nat) (n : Nat) :
    Except Nat (List Nat) × Event × Nat :=
  match bus k with
  | .ok bytes => (.ok (padRead n bytes), .readE addr n (.ok (padRead n bytes)), k + 1)
  | .nack e => (.error e, .readE addr n (.error e), k + 1)

/-- `Ahtx0::soft_reset`: write the 0xBA command, then delay 20 ms; a failed
write propagates immediately (the `?` operator) and skips the delay. -/
def soft_reset (bus : Bus) (addr : Nat) (k : Nat) :
    Except InternalError Unit × List Event × Nat :=
  match i2cWrite bus addr k [0xBA] with
  | (.ok _, ev, kw) => (.ok (), [ev, .delayE 20], kw)
  | (.error e, ev, kw) => (.error (.i2c e), [ev], kw)

/-- `Ahtx0::status`: read one byte into a zero-initialised 1-byte buffer and
return it. -/
def status (bus : Bus) (addr : Nat) (k : Nat) :
    Except InternalError Nat × Event × Nat :=
  match i2cRead bus addr k 1 with
  | (.ok buf, ev, kr) => (.ok (buf.headD 0), ev, kr)
  | (.error e, ev, kr) => (.error (.i2c e), ev, kr)

/-- The `for _ in 0..10` loop body of `Ahtx0::wait_for_calibration`, with the
remaining iteration count explicit: read the status byte, succeed immediately
when bit 3 (mask 0x08) is set, otherwise delay 10 ms and retry; when the
iterations are exhausted, fail with `CalibrationFailed`. -/
def wait_for_calibration_loop (bus : Bus) (addr : Nat) :
    Nat → Nat → Except InternalError Unit × List Event × Nat
  | 0, k => (.error .calibrationFailed, [], k)
  | n + 1, k =>
    match status bus addr k with
    | (.ok b, ev, kr) =>
      if b &&& 0x08 = 0x08 then
        (.ok (), [ev], kr)
      else
        let r := wait_for_calibration_loop bus addr n kr
        (r.1, ev :: .delayE 10 :: r.2.1, r.2.2)
    | (.error e, ev, kr) => (.error e, [ev], kr)

/-- `Ahtx0::wait_for_calibration`: the polling loop with 10 attempts. -/
def wait_for_calibration (bus : Bus) (addr : Nat) (k : Nat) :
    Except InternalError Unit × List Event × Nat :=
  wait_for_calibration_loop bus addr 10 k

/-- `Ahtx0::new`: soft reset, then wait for calibration; either failure
propagates. -/
def Ahtx0.new (bus : Bus) (addr : Nat) (k : Nat) :
    Except InternalError Unit × List Event × Nat :=
  match soft_reset bus addr k with
  | (.ok _, tr1, k1) =>
    let r := wait_for_calibration bus addr k1
    (r.1, tr1 ++ r.2.1, r.2.2)
  | (.error e, tr1, k1) => (.error e, tr1, k1)

/-- The `for _ in 0..10` busy-polling loop of
`Ahtx0::read_temperature_humidity`: read the status byte; when bit 7 (mask
0x80) is clear, perform the 6-byte data read and decode; otherwise delay 10 ms
and retry; when the iterations are exhausted, fail with `SensorStillBusy`. -/
def busy_loop (bus : Bus) (addr : Nat) :
    Nat → Nat → Except InternalError RawSensorData × List Event × Nat
  | 0, k => (.error .sensorStillBusy, [], k)
  | n + 1, k =>
    match status bus addr k with
    | (.ok b, ev, kr) =>
      if b &&& 0x80 = 0 then
        match i2cRead bus addr kr 6 with
        | (.ok buf, ev2, kd) => (.ok (RawSensorData.from_raw_bytes buf), [ev, ev2], kd)
        | (.error e, ev2, kd) => (.error (.i2c e), [ev, ev2], kd)
      else
        let r := busy_loop bus addr n kr
        (r.1, ev :: .delayE 10 :: r.2.1, r.2.2)
    | (.error e, ev, kr) => (.error e, [ev], kr)

/-- `Ahtx0::read_temperature_humidity`: write the trigger command
(0xAC, 0x33, 0x00), delay 80 ms, then run the busy-polling loop with 10
attempts; a failed trigger write propagates immediately. -/
def read_temperature_humidity (bus : Bus) (addr : Nat) (k : Nat) :
    Except InternalError RawSensorData × List Event × Nat :=
  match i2cWrite bus addr k [0xAC, 0x33, 0x00] with
  | (.ok _, ev, kw) =>
    let r := busy_loop bus addr 10 kw
    (r.1, ev :: .delayE 80 :: r.2.1, r.2.2)
  | (.error e, ev, kw) => (.error (.i2c e), [ev], kw)

/-- The environment of one `read_sensor_internal` run: the outcome of opening
the I2C device node (an open failure becomes an `InternalError::I2c` via
`map_err`), and the bus oracle. -/
structure Env where
  openResult : Except Nat Unit
  bus : Bus

/-- `read_sensor_internal`: open the device (address 0x38), construct the
driver (reset + calibration) and take one reading; on success the
`SensorReading` carries the measurement with status code 0. -/
def read_sensor_internal (env : Env) :
    Except InternalError SensorReading × List Event :=
  match env.openResult with
  | .error e => (.error (.i2c e), [])
  | .ok _ =>
    match Ahtx0.new env.bus 0x38 0 with
    | (.ok _, tr1, k1) =>
      match read_temperature_humidity env.bus 0x38 k1 with
      | (.ok raw, tr2, _) =>
        (.ok { temperature := raw.temperature, humidity := raw.humidity,
               status_code := 0 }, tr1 ++ tr2)
      | (.error e, tr2, _) => (.error e, tr1 ++ tr2)
    | (.error e, tr1, _) => (.error e, tr1)

/-- The `match` in `read_ahtx0_sensor`: map the internal result to the C
struct, collapsing every error to the sentinel record
`{temperature: 1000.0, humidity: 1000.0, status_code: -1}`. -/
def sensorReadingOfResult (r : Except InternalError SensorReading) :
    SensorReading :=
  match r with
  | .ok reading => reading
  | .error _ => { temperature := 1000, humidity := 1000, status_code := -1 }

/-- `read_ahtx0_sensor`: the FFI entry point (the `eprintln!` diagnostic is a
side channel outside the data model). -/
def read_ahtx0_sensor (env : Env) : SensorReading :=
  sensorReadingOfResult (read_sensor_internal env).1

/-! ### Decoder: code bounds and the spec formulas -/

/-- The decode formulas exactly as the spec (§4.2) states them, on the five
used bytes; first component humidity (percent RH), second temperature
(degrees Celsius). -/
def specDecode (b1 b2 b3 b4 b5 : Nat) : ℚ × ℚ :=
  let humidity_code : Nat := (b1 <<< 12) ||| (b2 <<< 4) ||| (b3 >>> 4)
  let temperature_code : Nat := ((b3 &&& 0x0F) <<< 16) ||| (b4 <<< 8) ||| b5
  ((humidity_code : ℚ) / 2 ^ 20 * 100, (temperature_code : ℚ) / 2 ^ 20 * 200 - 50)

lemma hum_code_lt (b1 b2 b3 : Nat) (h1 : b1 < 256) (h2 : b2 < 256)
    (h3 : b3 < 256) : (b1 <<< 12) ||| (b2 <<< 4) ||| (b3 >>> 4) < 2 ^ 20 := by
  apply Nat.or_lt_two_pow
  · apply Nat.or_lt_two_pow
    · rw [Nat.shiftLeft_eq]
      norm_num
      omega
    · rw [Nat.shiftLeft_eq]
      norm_num
      omega
  · rw [Nat.shiftRight_eq_div_pow]
    norm_num
    omega

lemma temp_code_lt (b3 b4 b5 : Nat) (h4 : b4 < 256) (h5 : b5 < 256) :
    ((b3 &&& 0x0F) <<< 16) ||| (b4 <<< 8) ||| b5 < 2 ^ 20 := by
  apply Nat.or_lt_two_pow
  · apply Nat.or_lt_two_pow
    · rw [Nat.shiftLeft_eq]
      have : b3 &&& 0x0F ≤ 0x0F := Nat.and_le_right
      norm_num
      omega
    · rw [Nat.shiftLeft_eq]
      norm_num
      omega
  · omega

/-- Claim C1: on every 6-byte sample the decoder computes exactly the code
formulas of the spec (both codes 20-bit when the bytes are bytes), scales them
as `code / 2^20 * 100` and `code / 2^20 * 200 - 50`, and ignores byte 0.  It
is a plain total function of the sample, hence pure and deterministic with no
error path. -/
theorem from_raw_bytes_spec (b0 b1 b2 b3 b4 b5 : Nat) (h1 : b1 < 256)
    (h2 : b2 < 256) (h3 : b3 < 256) (h4 : b4 < 256) (h5 : b5 < 256) :
    (RawSensorData.from_raw_bytes [b0, b1, b2, b3, b4, b5]).humidity
        = (specDecode b1 b2 b3 b4 b5).1
      ∧ (RawSensorData.from_raw_bytes [b0, b1, b2, b3, b4, b5]).temperature
        = (specDecode b1 b2 b3 b4 b5).2
      ∧ (b1 <<< 12) ||| (b2 <<< 4) ||| (b3 >>> 4) < 2 ^ 20
      ∧ ((b3 &&& 0x0F) <<< 16) ||| (b4 <<< 8) ||| b5 < 2 ^ 20
      ∧ ∀ c0 : Nat, RawSensorData.from_raw_bytes [c0, b1, b2, b3, b4, b5]
          = RawSensorData.from_raw_bytes [b0, b1, b2, b3, b4, b5] := by
  refine ⟨rfl, rfl, hum_code_lt b1 b2 b3 h1 h2 h3, temp_code_lt b3 b4 b5 h4 h5,
    fun c0 => rfl⟩

/-- Witness for `from_raw_bytes_spec` at the concrete sample
`[5, 18, 52, 86, 120, 154]`. -/
theorem from_raw_bytes_spec_witness :
    (RawSensorData.from_raw_bytes [5, 18, 52, 86, 120, 154]).humidity
        = (specDecode 18 52 86 120 154).1
      ∧ (RawSensorData.from_raw_bytes [5, 18, 52, 86, 120, 154]).temperature
        = (specDecode 18 52 86 120 154).2
      ∧ (18 <<< 12) ||| (52 <<< 4) ||| (86 >>> 4) < 2 ^ 20
      ∧ ((86 &&& 0x0F) <<< 16) ||| (120 <<< 8) ||| 154 < 2 ^ 20
      ∧ ∀ c0 : Nat, RawSensorData.from_raw_bytes [c0, 18, 52, 86, 120, 154]
          = RawSensorData.from_raw_bytes [5, 18, 52, 86, 120, 154] :=
  from_raw_bytes_spec 5 18 52 86 120 154 (by decide) (by decide) (by decide)
    (by decide) (by decide)

/-- Evaluation helper: once the two codes of a sample are computed (a pure
`Nat` bit computation), the decode is the scaled rationals. -/
lemma from_raw_bytes_eval (b0 b1 b2 b3 b4 b5 hc tc : Nat)
    (hh : (b1 <<< 12) ||| (b2 <<< 4) ||| (b3 >>> 4) = hc)
    (ht : ((b3 &&& 0x0F) <<< 16) ||| (b4 <<< 8) ||| b5 = tc) :
    RawSensorData.from_raw_bytes [b0, b1, b2, b3, b4, b5]
      = { temperature := (tc : ℚ) / 2 ^ 20 * 200 - 50
          humidity := (hc : ℚ) / 2 ^ 20 * 100 } := by
  subst hh ht
  rfl

/-- Claim C5 counterexample: on the spec vector
`[0x1C, 0x80, 0x00, 0x00, 0x80, 0x00]` the temperature code is
`(0x00 & 0x0F) << 16 | 0x80 << 8 | 0x00 = 0x8000`, not 0x80000, and the
decoded temperature is -43.75 °C, not 50.0 °C. -/
theorem known_vector_temperature_not_50 :
    ((0x00 &&& 0x0F) <<< 16) ||| (0x80 <<< 8) ||| 0x00 = 0x8000
      ∧ (RawSensorData.from_raw_bytes
          [0x1C, 0x80, 0x00, 0x00, 0x80, 0x00]).temperature = -175 / 4
      ∧ (RawSensorData.from_raw_bytes
          [0x1C, 0x80, 0x00, 0x00, 0x80, 0x00]).temperature ≠ 50 := by
  rw [from_raw_bytes_eval 0x1C 0x80 0x00 0x00 0x80 0x00 0x80000 0x8000
    (by decide) (by decide)]
  refine ⟨by decide, by norm_num, by norm_num⟩

/-- Claim C5 (amended): decoding `[0x1C, 0x80, 0x00, 0x00, 0x80, 0x00]`
yields humidity code 0x80000 and thus 50.0 %RH, and temperature code 0x8000
and thus -43.75 °C, with byte 0 ignored by the decoder. -/
theorem known_vector_decode :
    (0x80 <<< 12) ||| (0x00 <<< 4) ||| (0x00 >>> 4) = 0x80000
      ∧ ((0x00 &&& 0x0F) <<< 16) ||| (0x80 <<< 8) ||| 0x00 = 0x8000
      ∧ RawSensorData.from_raw_bytes [0x1C, 0x80, 0x00, 0x00, 0x80, 0x00]
          = { temperature := -175 / 4, humidity := 50 }
      ∧ ∀ c0 : Nat, RawSensorData.from_raw_bytes [c0, 0x80, 0x00, 0x00, 0x80, 0x00]
          = RawSensorData.from_raw_bytes [0x1C, 0x80, 0x00, 0x00, 0x80, 0x00] := by
  rw [from_raw_bytes_eval 0x1C 0x80 0x00 0x00 0x80 0x00 0x80000 0x8000
    (by decide) (by decide)]
  refine ⟨by decide, by decide, ?_, fun c0 =>
    from_raw_bytes_eval c0 0x80 0x00 0x00 0x80 0x00 0x80000 0x8000
      (by decide) (by decide)⟩
  have h1 : ((0x8000 : Nat) : ℚ) / 2 ^ 20 * 200 - 50 = -175 / 4 := by norm_num
  have h2 : ((0x80000 : Nat) : ℚ) / 2 ^ 20 * 100 = 50 := by norm_num
  rw [h1, h2]

/-- Claim C6: humidity code 0 (sample of zero bytes) decodes to exactly
0.0 %RH and temperature code 0 to exactly -50.0 °C; the all-ones sample has
both codes 0xFFFFF, humidity exactly 104857500/2^20 ≈ 99.99990 %RH and
temperature exactly 209715000/2^20 - 50 ≈ 149.99981 °C, each within one code
step (100/2^20 resp. 200/2^20) of the spec value. -/
theorem boundary_codes :
    RawSensorData.from_raw_bytes [0, 0, 0, 0, 0, 0]
        = { temperature := -50, humidity := 0 }
      ∧ (0xFF <<< 12) ||| (0xFF <<< 4) ||| (0xFF >>> 4) = 0xFFFFF
      ∧ ((0xFF &&& 0x0F) <<< 16) ||| (0xFF <<< 8) ||| 0xFF = 0xFFFFF
      ∧ (RawSensorData.from_raw_bytes [0, 0xFF, 0xFF, 0xFF, 0xFF, 0xFF]).humidity
          = 104857500 / 1048576
      ∧ |(RawSensorData.from_raw_bytes [0, 0xFF, 0xFF, 0xFF, 0xFF, 0xFF]).humidity
          - 999999 / 10000| ≤ 100 / 2 ^ 20
      ∧ (RawSensorData.from_raw_bytes [0, 0xFF, 0xFF, 0xFF, 0xFF, 0xFF]).temperature
          = 209715000 / 1048576 - 50
      ∧ |(RawSensorData.from_raw_bytes [0, 0xFF, 0xFF, 0xFF, 0xFF, 0xFF]).temperature
          - 14999981 / 100000| ≤ 200 / 2 ^ 20 := by
  rw [from_raw_bytes_eval 0 0 0 0 0 0 0 0 (by decide) (by decide),
    from_raw_bytes_eval 0 0xFF 0xFF 0xFF 0xFF 0xFF 0xFFFFF 0xFFFFF
      (by decide) (by decide)]
  refine ⟨?_, by decide, by decide, by norm_num, by
      rw [abs_le]; constructor <;> norm_num,
    by norm_num, by rw [abs_le]; constructor <;> norm_num⟩
  have h1 : ((0 : Nat) : ℚ) / 2 ^ 20 * 200 - 50 = -50 := by norm_num
  have h2 : ((0 : Nat) : ℚ) / 2 ^ 20 * 100 = 0 := by norm_num
  rw [h1, h2]

/-- Claim C9 counterexample (negation of the existential part): no 6-byte
sample of genuine bytes decodes to a humidity strictly above 100 %RH or
strictly below 0 %RH. -/
theorem no_out_of_range_humidity :
    ¬ ∃ data : List Nat, (data.length = 6 ∧ ∀ b ∈ data, b < 256)
      ∧ (100 < (RawSensorData.from_raw_bytes data).humidity
         ∨ (RawSensorData.from_raw_bytes data).humidity < 0) := by
  rintro ⟨data, ⟨hlen, hb⟩, hout⟩
  match data, hlen with
  | [b0, b1, b2, b3, b4, b5], _ =>
    have h1 : b1 < 256 := hb b1 (by simp)
    have h2 : b2 < 256 := hb b2 (by simp)
    have h3 : b3 < 256 := hb b3 (by simp)
    have hc := hum_code_lt b1 b2 b3 h1 h2 h3
    set c : Nat := (b1 <<< 12) ||| (b2 <<< 4) ||| (b3 >>> 4) with hcdef
    have hcq : (c : ℚ) < 2 ^ 20 := by exact_mod_cast hc
    have hum : (RawSensorData.from_raw_bytes [b0, b1, b2, b3, b4, b5]).humidity
        = (c : ℚ) / 2 ^ 20 * 100 := rfl
    rw [hum] at hout
    rcases hout with hgt | hlt
    · have : (c : ℚ) / 2 ^ 20 < 1 := by
        rw [div_lt_one (by positivity)]
        exact hcq
      nlinarith
    · have hc0 : (0 : ℚ) ≤ (c : ℚ) / 2 ^ 20 * 100 := by positivity
      linarith

/-- Claim C9 (amended): the decoder applies no clamping — humidity is exactly
`code / 2^20 * 100` for every sample — but since the humidity code of a
6-byte sample is below 2^20, the decoded humidity always lies in [0, 100): no
sample decodes strictly above 100 %RH or strictly below 0 %RH. -/
theorem humidity_unclamped_in_range (b0 b1 b2 b3 b4 b5 : Nat) (h1 : b1 < 256)
    (h2 : b2 < 256) (h3 : b3 < 256) :
    (RawSensorData.from_raw_bytes [b0, b1, b2, b3, b4, b5]).humidity
        = (((b1 <<< 12) ||| (b2 <<< 4) ||| (b3 >>> 4) : Nat) : ℚ) / 2 ^ 20 * 100
      ∧ 0 ≤ (RawSensorData.from_raw_bytes [b0, b1, b2, b3, b4, b5]).humidity
      ∧ (RawSensorData.from_raw_bytes [b0, b1, b2, b3, b4, b5]).humidity < 100 := by
  have hc := hum_code_lt b1 b2 b3 h1 h2 h3
  set c : Nat := (b1 <<< 12) ||| (b2 <<< 4) ||| (b3 >>> 4) with hcdef
  have hcq : (c : ℚ) < 2 ^ 20 := by exact_mod_cast hc
  have hum : (RawSensorData.from_raw_bytes [b0, b1, b2, b3, b4, b5]).humidity
      = (c : ℚ) / 2 ^ 20 * 100 := rfl
  have hlt : (c : ℚ) / 2 ^ 20 < 1 := by
    rw [div_lt_one (by positivity)]
    exact hcq
  refine ⟨hum, ?_, ?_⟩
  · rw [hum]
    positivity
  · rw [hum]
    nlinarith

/-- Witness for `humidity_unclamped_in_range` at the all-ones sample. -/
theorem humidity_unclamped_in_range_witness :
    (RawSensorData.from_raw_bytes [0, 255, 255, 255, 255, 255]).humidity
        = (((255 <<< 12) ||| (255 <<< 4) ||| (255 >>> 4) : Nat) : ℚ) / 2 ^ 20 * 100
      ∧ 0 ≤ (RawSensorData.from_raw_bytes [0, 255, 255, 255, 255, 255]).humidity
      ∧ (RawSensorData.from_raw_bytes [0, 255, 255, 255, 255, 255]).humidity < 100 :=
  humidity_unclamped_in_range 0 255 255 255 255 255 (by decide) (by decide)
    (by decide)


/-! ### Polling loops: exact traces -/

/-- A successful 1-byte status read of a genuine byte. -/
lemma status_ok (bus : Bus) (addr k b : Nat) (hbus : bus k = .ok [b])
    (hb : b < 256) :
    status bus addr k = (.ok b, .readE addr 1 (.ok [b]), k + 1) := by
  have hpad : padRead 1 [b] = [b] := by
    have h1 : padRead 1 [b] = [b % 256] := rfl
    rw [h1, Nat.mod_eq_of_lt hb]
  simp [status, i2cRead, hbus, hpad]

/-- Well-behaved status responses on the index window `[k, k+n)`: each is a
single genuine byte. -/
def StatusBytes (bus : Bus) (b : Nat → Nat) (k n : Nat) : Prop :=
  ∀ i, k ≤ i → i < k + n → bus i = Reply.ok [b i] ∧ b i < 256

/-- The read-then-delay pair the polling loops record for each failed
attempt at transaction index `i`. -/
def pollEvents (addr : Nat) (b : Nat → Nat) (i : Nat) : List Event :=
  [Event.readE addr 1 (.ok [b i]), Event.delayE 10]

/-- Trace of `n` failed polling attempts starting at transaction index `k`. -/
def pollTrace (addr : Nat) (b : Nat → Nat) (k n : Nat) : List Event :=
  ((List.range' k n).map (pollEvents addr b)).flatten

lemma pollTrace_zero (addr : Nat) (b : Nat → Nat) (k : Nat) :
    pollTrace addr b k 0 = [] := rfl

lemma pollTrace_succ (addr : Nat) (b : Nat → Nat) (k n : Nat) :
    pollTrace addr b k (n + 1)
      = Event.readE addr 1 (.ok [b k]) :: Event.delayE 10
          :: pollTrace addr b (k + 1) n := by
  simp [pollTrace, List.range', pollEvents]

/-- Calibration loop, all attempts see bit 3 clear: the loop fails with
`CalibrationFailed` after exactly `n` status reads, each followed by the
10 ms delay. -/
lemma cal_loop_all_clear (bus : Bus) (addr : Nat) (b : Nat → Nat) :
    ∀ n k, StatusBytes bus b k n →
      (∀ i, k ≤ i → i < k + n → b i &&& 0x08 ≠ 0x08) →
      wait_for_calibration_loop bus addr n k
        = (.error .calibrationFailed, pollTrace addr b k n, k + n)
  | 0, k, _, _ => by simp [wait_for_calibration_loop, pollTrace_zero]
  | n + 1, k, h, hbit => by
    obtain ⟨hbus, hlt⟩ := h k (le_refl k) (by omega)
    have hb := hbit k (le_refl k) (by omega)
    have hrec := cal_loop_all_clear bus addr b n (k + 1)
      (fun i hi1 hi2 => h i (by omega) (by omega))
      (fun i hi1 hi2 => hbit i (by omega) (by omega))
    have hk : k + (n + 1) = k + 1 + n := by omega
    rw [pollTrace_succ, hk]
    simp only [wait_for_calibration_loop, status_ok bus addr k (b k) hbus hlt,
      if_neg hb, hrec]

/-- Calibration loop, early success at the (j+1)-st attempt: the first `j`
reads see bit 3 clear, the next read sees it set; the loop succeeds after
exactly `j + 1` status reads with no trailing delay. -/
lemma cal_loop_early (bus : Bus) (addr : Nat) (b : Nat → Nat) :
    ∀ n k j, j < n → StatusBytes bus b k j →
      (∀ i, k ≤ i → i < k + j → b i &&& 0x08 ≠ 0x08) →
      bus (k + j) = .ok [b (k + j)] → b (k + j) < 256 →
      b (k + j) &&& 0x08 = 0x08 →
      wait_for_calibration_loop bus addr n k
        = (.ok (),
           pollTrace addr b k j ++ [Event.readE addr 1 (.ok [b (k + j)])],
           k + j + 1)
  | 0, k, j, hj, _, _, _, _, _ => by omega
  | n + 1, k, 0, _, _, _, hks, hkb, hkset => by
    rw [Nat.add_zero] at hks hkb hkset
    simp only [wait_for_calibration_loop,
      status_ok bus addr k (b k) hks hkb, if_pos hkset]
    simp [pollTrace_zero]
  | n + 1, k, j + 1, hj, h, hbit, hks, hkb, hkset => by
    obtain ⟨hbus, hlt⟩ := h k (le_refl k) (by omega)
    have hb := hbit k (le_refl k) (by omega)
    have hadd : k + (j + 1) = k + 1 + j := by omega
    rw [hadd] at hks hkb hkset
    have hrec := cal_loop_early bus addr b n (k + 1) j (by omega)
      (fun i hi1 hi2 => h i (by omega) (by omega))
      (fun i hi1 hi2 => hbit i (by omega) (by omega)) hks hkb hkset
    rw [hadd, pollTrace_succ]
    simp only [wait_for_calibration_loop, status_ok bus addr k (b k) hbus hlt,
      if_neg hb, hrec, List.cons_append]

/-- Busy loop, all attempts see bit 7 set: the loop fails with
`SensorStillBusy` after exactly `n` status reads, each followed by the 10 ms
delay, and performs no 6-byte data read. -/
lemma busy_loop_all_busy (bus : Bus) (addr : Nat) (b : Nat → Nat) :
    ∀ n k, StatusBytes bus b k n →
      (∀ i, k ≤ i → i < k + n → b i &&& 0x80 ≠ 0) →
      busy_loop bus addr n k
        = (.error .sensorStillBusy, pollTrace addr b k n, k + n)
  | 0, k, _, _ => by simp [busy_loop, pollTrace_zero]
  | n + 1, k, h, hbit => by
    obtain ⟨hbus, hlt⟩ := h k (le_refl k) (by omega)
    have hb := hbit k (le_refl k) (by omega)
    have hrec := busy_loop_all_busy bus addr b n (k + 1)
      (fun i hi1 hi2 => h i (by omega) (by omega))
      (fun i hi1 hi2 => hbit i (by omega) (by omega))
    have hk : k + (n + 1) = k + 1 + n := by omega
    rw [pollTrace_succ, hk]
    simp only [busy_loop, status_ok bus addr k (b k) hbus hlt,
      if_neg hb, hrec]

/-- Busy loop, early success at the (j+1)-st attempt: the first `j` reads see
bit 7 set, the next read sees it clear; the loop then immediately performs the
6-byte data read and decodes it, after exactly `j + 1` status reads. -/
lemma busy_loop_early (bus : Bus) (addr : Nat) (b : Nat → Nat) (d : List Nat) :
    ∀ n k j, j < n → StatusBytes bus b k j →
      (∀ i, k ≤ i → i < k + j → b i &&& 0x80 ≠ 0) →
      bus (k + j) = .ok [b (k + j)] → b (k + j) < 256 →
      b (k + j) &&& 0x80 = 0 →
      bus (k + j + 1) = .ok d →
      busy_loop bus addr n k
        = (.ok (RawSensorData.from_raw_bytes (padRead 6 d)),
           pollTrace addr b k j
             ++ [Event.readE addr 1 (.ok [b (k + j)]),
                 Event.readE addr 6 (.ok (padRead 6 d))],
           k + j + 2)
  | 0, k, j, hj, _, _, _, _, _, _ => by omega
  | n + 1, k, 0, _, _, _, hks, hkb, hkclear, hd => by
    rw [Nat.add_zero] at hks hkb hkclear hd
    simp only [busy_loop, status_ok bus addr k (b k) hks hkb,
      if_pos hkclear, i2cRead, hd]
    simp [pollTrace_zero]
  | n + 1, k, j + 1, hj, h, hbit, hks, hkb, hkclear, hd => by
    obtain ⟨hbus, hlt⟩ := h k (le_refl k) (by omega)
    have hb := hbit k (le_refl k) (by omega)
    have hadd : k + (j + 1) = k + 1 + j := by omega
    rw [hadd] at hks hkb hkclear hd
    have hrec := busy_loop_early bus addr b d n (k + 1) j (by omega)
      (fun i hi1 hi2 => h i (by omega) (by omega))
      (fun i hi1 hi2 => hbit i (by omega) (by omega)) hks hkb hkclear hd
    rw [hadd, pollTrace_succ]
    simp only [busy_loop, status_ok bus addr k (b k) hbus hlt,
      if_neg hb, hrec, List.cons_append]

/-- Every event of a failed-attempts poll trace is a 1-byte status read or a
10 ms delay; in particular no 6-byte data read and no write occurs there. -/
lemma pollTrace_mem (addr : Nat) (b : Nat → Nat) :
    ∀ n k, ∀ ev ∈ pollTrace addr b k n,
      (∃ i, ev = Event.readE addr 1 (.ok [b i])) ∨ ev = Event.delayE 10
  | 0, k, ev, h => by rw [pollTrace_zero] at h; cases h
  | n + 1, k, ev, h => by
    rw [pollTrace_succ, List.mem_cons, List.mem_cons] at h
    rcases h with h | h | h
    · exact Or.inl ⟨k, h⟩
    · exact Or.inr h
    · exact pollTrace_mem addr b n (k + 1) ev h

/-- Claim C2: when the reset write succeeds and all 10 calibration status
reads return a byte with bit 3 (mask 0x08) clear, `Ahtx0::new` fails with
`CalibrationFailed`; the complete trace is the single 0xBA reset write, the
20 ms settle delay, and then exactly 10 status reads each followed by the
10 ms delay — no more, no fewer, and no retry beyond them (the final
transaction index is 11). -/
theorem calibration_timeout (bus : Bus) (addr : Nat) (b : Nat → Nat)
    (l : List Nat) (hw : bus 0 = .ok l) (hs : StatusBytes bus b 1 10)
    (hclear : ∀ i, 1 ≤ i → i < 11 → b i &&& 0x08 ≠ 0x08) :
    Ahtx0.new bus addr 0
      = (.error .calibrationFailed,
         Event.writeE addr [0xBA] (.ok ()) :: Event.delayE 20
           :: pollTrace addr b 1 10, 11) := by
  have hcal := cal_loop_all_clear bus addr b 10 1 hs hclear
  simp only [Ahtx0.new, soft_reset, i2cWrite, hw, wait_for_calibration, hcal,
    List.cons_append, List.nil_append]

/-- Witness for `calibration_timeout`: a device that always answers status
0x00. -/
theorem calibration_timeout_witness :
    Ahtx0.new (fun _ => .ok [0]) 0x38 0
      = (.error .calibrationFailed,
         Event.writeE 0x38 [0xBA] (.ok ()) :: Event.delayE 20
           :: pollTrace 0x38 (fun _ => 0) 1 10, 11) :=
  calibration_timeout (fun _ => .ok [0]) 0x38 (fun _ => 0) [0] rfl
    (fun i h1 h2 => ⟨rfl, by show (0 : Nat) < 256; decide⟩)
    (fun i h1 h2 => by show (0 : Nat) &&& 0x08 ≠ 0x08; decide)

/-- Claim C3: when the 3-byte trigger write (0xAC, 0x33, 0x00) succeeds and
all 10 busy polls return a byte with bit 7 (mask 0x80) set,
`Ahtx0::read_temperature_humidity` fails with `SensorStillBusy`; the complete
trace is the trigger write, the 80 ms initial delay, then exactly 10 status
reads each followed by the 10 ms delay, and it contains no 6-byte data
read. -/
theorem busy_timeout (bus : Bus) (addr k : Nat) (b : Nat → Nat)
    (l : List Nat) (hw : bus k = .ok l) (hs : StatusBytes bus b (k + 1) 10)
    (hbusy : ∀ i, k + 1 ≤ i → i < k + 1 + 10 → b i &&& 0x80 ≠ 0) :
    read_temperature_humidity bus addr k
        = (.error .sensorStillBusy,
           Event.writeE addr [0xAC, 0x33, 0x00] (.ok ()) :: Event.delayE 80
             :: pollTrace addr b (k + 1) 10, k + 11)
      ∧ ∀ ev ∈ (read_temperature_humidity bus addr k).2.1, ∀ r,
          ev ≠ Event.readE addr 6 r := by
  have hb := busy_loop_all_busy bus addr b 10 (k + 1) hs hbusy
  have heq : read_temperature_humidity bus addr k
      = (.error .sensorStillBusy,
         Event.writeE addr [0xAC, 0x33, 0x00] (.ok ()) :: Event.delayE 80
           :: pollTrace addr b (k + 1) 10, k + 11) := by
    have hk : k + 1 + 10 = k + 11 := by omega
    simp only [read_temperature_humidity, i2cWrite, hw, hb, hk]
  refine ⟨heq, ?_⟩
  rw [heq]
  intro ev hev r
  rw [List.mem_cons, List.mem_cons] at hev
  rcases hev with h | h | h
  · simp [h]
  · simp [h]
  · rcases pollTrace_mem addr b 10 (k + 1) ev h with ⟨i, hi⟩ | hi <;> simp [hi]

/-- Witness for `busy_timeout`: a device that always answers status 0x80. -/
theorem busy_timeout_witness :
    (read_temperature_humidity (fun _ => .ok [0x80]) 0x38 0
        = (.error .sensorStillBusy,
           Event.writeE 0x38 [0xAC, 0x33, 0x00] (.ok ()) :: Event.delayE 80
             :: pollTrace 0x38 (fun _ => 0x80) 1 10, 11)
      ∧ ∀ ev ∈ (read_temperature_humidity (fun _ => .ok [0x80]) 0x38 0).2.1,
          ∀ r, ev ≠ Event.readE 0x38 6 r) :=
  busy_timeout (fun _ => .ok [0x80]) 0x38 0 (fun _ => 0x80) [0x80] rfl
    (fun i h1 h2 => ⟨rfl, by show (0x80 : Nat) < 256; decide⟩)
    (fun i h1 h2 => by show (0x80 : Nat) &&& 0x80 ≠ 0; decide)

/-- Claim C7: if the (j+1)-st status poll (with j + 1 < 10) is the first to
satisfy the loop condition, the loop performs exactly j + 1 status reads and
nothing else before its success action: the calibration loop (bit 3 set)
returns immediately with no trailing delay, and the busy loop (bit 7 clear)
immediately performs the single 6-byte data read. -/
theorem early_success (j : Nat) (hj : j + 1 < 10)
    (bus1 : Bus) (addr1 k1 : Nat) (b1 : Nat → Nat)
    (hs1 : StatusBytes bus1 b1 k1 j)
    (hc1 : ∀ i, k1 ≤ i → i < k1 + j → b1 i &&& 0x08 ≠ 0x08)
    (hk1 : bus1 (k1 + j) = .ok [b1 (k1 + j)]) (hb1 : b1 (k1 + j) < 256)
    (hset1 : b1 (k1 + j) &&& 0x08 = 0x08)
    (bus2 : Bus) (addr2 k2 : Nat) (b2 : Nat → Nat) (d : List Nat)
    (hs2 : StatusBytes bus2 b2 k2 j)
    (hc2 : ∀ i, k2 ≤ i → i < k2 + j → b2 i &&& 0x80 ≠ 0)
    (hk2 : bus2 (k2 + j) = .ok [b2 (k2 + j)]) (hb2 : b2 (k2 + j) < 256)
    (hclear2 : b2 (k2 + j) &&& 0x80 = 0)
    (hd : bus2 (k2 + j + 1) = .ok d) :
    wait_for_calibration bus1 addr1 k1
        = (.ok (),
           pollTrace addr1 b1 k1 j
             ++ [Event.readE addr1 1 (.ok [b1 (k1 + j)])], k1 + j + 1)
      ∧ busy_loop bus2 addr2 10 k2
        = (.ok (RawSensorData.from_raw_bytes (padRead 6 d)),
           pollTrace addr2 b2 k2 j
             ++ [Event.readE addr2 1 (.ok [b2 (k2 + j)]),
                 Event.readE addr2 6 (.ok (padRead 6 d))], k2 + j + 2) := by
  constructor
  · exact cal_loop_early bus1 addr1 b1 10 k1 j (by omega) hs1 hc1 hk1 hb1 hset1
  · exact busy_loop_early bus2 addr2 b2 d 10 k2 j (by omega) hs2 hc2 hk2 hb2
      hclear2 hd

/-- Witness for `early_success` at j = 0: the very first poll succeeds in
both loops. -/
theorem early_success_witness :
    (wait_for_calibration (fun _ => .ok [0x08]) 0x38 0
        = (.ok (),
           pollTrace 0x38 (fun _ => 0x08) 0 0
             ++ [Event.readE 0x38 1 (.ok [0x08])], 1)
      ∧ busy_loop (fun _ => .ok [0x00]) 0x38 10 0
        = (.ok (RawSensorData.from_raw_bytes (padRead 6 [0x00])),
           pollTrace 0x38 (fun _ => 0x00) 0 0
             ++ [Event.readE 0x38 1 (.ok [0x00]),
                 Event.readE 0x38 6 (.ok (padRead 6 [0x00]))], 2)) :=
  early_success 0 (by decide)
    (fun _ => .ok [0x08]) 0x38 0 (fun _ => 0x08)
    (fun i h1 h2 => absurd h2 (by omega)) (fun i h1 h2 => absurd h2 (by omega))
    rfl (by show (0x08 : Nat) < 256; decide)
    (by show (0x08 : Nat) &&& 0x08 = 0x08; decide)
    (fun _ => .ok [0x00]) 0x38 0 (fun _ => 0x00) [0x00]
    (fun i h1 h2 => absurd h2 (by omega)) (fun i h1 h2 => absurd h2 (by omega))
    rfl (by show (0x00 : Nat) < 256; decide)
    (by show (0x00 : Nat) &&& 0x80 = 0; decide) rfl

/-! ### Communication failure propagation -/

/-- The bus error carried by an event, when the event is a failed
transaction. -/
def evErr : Event → Option Nat
  | .writeE _ _ (.error e) => some e
  | .readE _ _ (.error e) => some e
  | _ => none

/-- A trace in which no bus transaction failed. -/
def CleanTrace (tr : List Event) : Prop := ∀ ev ∈ tr, evErr ev = none

/-- Communication failures propagate: either the run saw no bus failure at
all, or its trace stops exactly at the first failing transaction and the
result is the communication error carrying that bus error. -/
def Propagates {α : Type} (res : Except InternalError α) (tr : List Event) :
    Prop :=
  CleanTrace tr
    ∨ ∃ pre ev e, tr = pre ++ [ev] ∧ CleanTrace pre ∧ evErr ev = some e
        ∧ res = .error (.i2c e)

lemma cleanTrace_nil : CleanTrace [] := by intro ev h; cases h

lemma cleanTrace_cons {ev : Event} {tr : List Event} (h1 : evErr ev = none)
    (h2 : CleanTrace tr) : CleanTrace (ev :: tr) := by
  intro x hx
  rw [List.mem_cons] at hx
  rcases hx with hx | hx
  · rw [hx]; exact h1
  · exact h2 x hx

lemma cleanTrace_append {tr1 tr2 : List Event} (h1 : CleanTrace tr1)
    (h2 : CleanTrace tr2) : CleanTrace (tr1 ++ tr2) := by
  intro x hx
  rw [List.mem_append] at hx
  rcases hx with hx | hx
  · exact h1 x hx
  · exact h2 x hx

/-- Prepending a clean prefix preserves propagation. -/
lemma propagates_seq {α : Type} {res : Except InternalError α}
    {tr1 tr2 : List Event} (h1 : CleanTrace tr1) (h2 : Propagates res tr2) :
    Propagates res (tr1 ++ tr2) := by
  rcases h2 with h2 | ⟨pre, ev, e, htr, hpre, herr, hres⟩
  · exact Or.inl (cleanTrace_append h1 h2)
  · refine Or.inr ⟨tr1 ++ pre, ev, e, ?_, cleanTrace_append h1 hpre, herr, hres⟩
    rw [htr, List.append_assoc]

/-- Propagation only inspects the communication-error part of the result. -/
lemma propagates_congr {α β : Type} {r1 : Except InternalError α}
    {r2 : Except InternalError β} {tr : List Event}
    (h : Propagates r1 tr)
    (hagree : ∀ e, r1 = .error (.i2c e) → r2 = .error (.i2c e)) :
    Propagates r2 tr := by
  rcases h with h | ⟨pre, ev, e, htr, hpre, herr, hres⟩
  · exact Or.inl h
  · exact Or.inr ⟨pre, ev, e, htr, hpre, herr, hagree e hres⟩

/-- The calibration polling loop propagates bus failures. -/
lemma cal_loop_propagates (bus : Bus) (addr : Nat) :
    ∀ n k, Propagates (wait_for_calibration_loop bus addr n k).1
      (wait_for_calibration_loop bus addr n k).2.1
  | 0, k => Or.inl cleanTrace_nil
  | n + 1, k => by
    cases hbk : bus k with
    | nack e =>
      refine Or.inr ⟨[], .readE addr 1 (.error e), e, ?_⟩
      simp [wait_for_calibration_loop, status, i2cRead, hbk, cleanTrace_nil,
        evErr]
    | ok bytes =>
      have hstat : status bus addr k
          = (.ok ((padRead 1 bytes).headD 0),
             .readE addr 1 (.ok (padRead 1 bytes)), k + 1) := by
        simp [status, i2cRead, hbk]
      by_cases hbit : (padRead 1 bytes).headD 0 &&& 0x08 = 0x08
      · simp only [wait_for_calibration_loop, hstat, if_pos hbit]
        exact Or.inl (cleanTrace_cons rfl cleanTrace_nil)
      · have hrec := cal_loop_propagates bus addr n (k + 1)
        simp only [wait_for_calibration_loop, hstat, if_neg hbit]
        have hsplit : Event.readE addr 1 (.ok (padRead 1 bytes))
            :: Event.delayE 10
            :: (wait_for_calibration_loop bus addr n (k + 1)).2.1
          = [Event.readE addr 1 (.ok (padRead 1 bytes)), Event.delayE 10]
            ++ (wait_for_calibration_loop bus addr n (k + 1)).2.1 := rfl
        rw [hsplit]
        exact propagates_seq
          (cleanTrace_cons rfl (cleanTrace_cons rfl cleanTrace_nil)) hrec

/-- The busy polling loop propagates bus failures. -/
lemma busy_loop_propagates (bus : Bus) (addr : Nat) :
    ∀ n k, Propagates (busy_loop bus addr n k).1 (busy_loop bus addr n k).2.1
  | 0, k => Or.inl cleanTrace_nil
  | n + 1, k => by
    cases hbk : bus k with
    | nack e =>
      refine Or.inr ⟨[], .readE addr 1 (.error e), e, ?_⟩
      simp [busy_loop, status, i2cRead, hbk, cleanTrace_nil, evErr]
    | ok bytes =>
      have hstat : status bus addr k
          = (.ok ((padRead 1 bytes).headD 0),
             .readE addr 1 (.ok (padRead 1 bytes)), k + 1) := by
        simp [status, i2cRead, hbk]
      by_cases hbit : (padRead 1 bytes).headD 0 &&& 0x80 = 0
      · cases hbk2 : bus (k + 1) with
        | nack e =>
          have heq : busy_loop bus addr (n + 1) k
              = (.error (.i2c e),
                 [.readE addr 1 (.ok (padRead 1 bytes)),
                  .readE addr 6 (.error e)], k + 1 + 1) := by
            simp only [busy_loop, hstat, if_pos hbit, i2cRead, hbk2]
          rw [heq]
          exact Or.inr ⟨[.readE addr 1 (.ok (padRead 1 bytes))],
            .readE addr 6 (.error e), e, rfl,
            cleanTrace_cons rfl cleanTrace_nil, rfl, rfl⟩
        | ok d =>
          simp only [busy_loop, hstat, if_pos hbit, i2cRead, hbk2]
          exact Or.inl
            (cleanTrace_cons rfl (cleanTrace_cons rfl cleanTrace_nil))
      · have hrec := busy_loop_propagates bus addr n (k + 1)
        simp only [busy_loop, hstat, if_neg hbit]
        have hsplit : Event.readE addr 1 (.ok (padRead 1 bytes))
            :: Event.delayE 10 :: (busy_loop bus addr n (k + 1)).2.1
          = [Event.readE addr 1 (.ok (padRead 1 bytes)), Event.delayE 10]
            ++ (busy_loop bus addr n (k + 1)).2.1 := rfl
        rw [hsplit]
        exact propagates_seq
          (cleanTrace_cons rfl (cleanTrace_cons rfl cleanTrace_nil)) hrec

/-- A propagation certificate for a result that is not a communication error
forces the trace to be clean. -/
lemma propagates_ok_clean {α : Type} {res : Except InternalError α}
    {tr : List Event} (h : Propagates res tr)
    (hne : ∀ e, res ≠ .error (.i2c e)) : CleanTrace tr := by
  rcases h with h | ⟨pre, ev, e, htr, hpre, herr, hres⟩
  · exact h
  · exact absurd hres (hne e)

/-- `Ahtx0::new` propagates bus failures. -/
lemma new_propagates (bus : Bus) (addr k : Nat) :
    Propagates (Ahtx0.new bus addr k).1 (Ahtx0.new bus addr k).2.1 := by
  cases hbk : bus k with
  | nack e =>
    have heq : Ahtx0.new bus addr k
        = (.error (.i2c e), [.writeE addr [0xBA] (.error e)], k + 1) := by
      simp only [Ahtx0.new, soft_reset, i2cWrite, hbk]
    rw [heq]
    exact Or.inr ⟨[], .writeE addr [0xBA] (.error e), e, rfl, cleanTrace_nil,
      rfl, rfl⟩
  | ok bytes =>
    have heq : Ahtx0.new bus addr k
        = ((wait_for_calibration_loop bus addr 10 (k + 1)).1,
           [Event.writeE addr [0xBA] (.ok ()), Event.delayE 20]
             ++ (wait_for_calibration_loop bus addr 10 (k + 1)).2.1,
           (wait_for_calibration_loop bus addr 10 (k + 1)).2.2) := by
      simp only [Ahtx0.new, soft_reset, i2cWrite, hbk, wait_for_calibration]
    rw [heq]
    exact propagates_seq
      (cleanTrace_cons rfl (cleanTrace_cons rfl cleanTrace_nil))
      (cal_loop_propagates bus addr 10 (k + 1))

/-- `Ahtx0::read_temperature_humidity` propagates bus failures. -/
lemma rt_propagates (bus : Bus) (addr k : Nat) :
    Propagates (read_temperature_humidity bus addr k).1
      (read_temperature_humidity bus addr k).2.1 := by
  cases hbk : bus k with
  | nack e =>
    have heq : read_temperature_humidity bus addr k
        = (.error (.i2c e),
           [.writeE addr [0xAC, 0x33, 0x00] (.error e)], k + 1) := by
      simp only [read_temperature_humidity, i2cWrite, hbk]
    rw [heq]
    exact Or.inr ⟨[], .writeE addr [0xAC, 0x33, 0x00] (.error e), e, rfl,
      cleanTrace_nil, rfl, rfl⟩
  | ok bytes =>
    have heq : read_temperature_humidity bus addr k
        = ((busy_loop bus addr 10 (k + 1)).1,
           [Event.writeE addr [0xAC, 0x33, 0x00] (.ok ()), Event.delayE 80]
             ++ (busy_loop bus addr 10 (k + 1)).2.1,
           (busy_loop bus addr 10 (k + 1)).2.2) := by
      simp only [read_temperature_humidity, i2cWrite, hbk]
      rfl
    rw [heq]
    exact propagates_seq
      (cleanTrace_cons rfl (cleanTrace_cons rfl cleanTrace_nil))
      (busy_loop_propagates bus addr 10 (k + 1))

/-- Claim C4: for every environment, the full run either saw no bus failure,
or it stops exactly at the first failing bus transaction — no event, hence no
write, read, poll or delay, follows it — and returns the communication error
`InternalError::I2c` carrying that transaction's underlying bus error; the
failure is not retried. -/
theorem comm_error_propagation (env : Env) :
    Propagates (read_sensor_internal env).1 (read_sensor_internal env).2 := by
  cases hop : env.openResult with
  | error e =>
    have heq : read_sensor_internal env = (.error (.i2c e), []) := by
      simp only [read_sensor_internal, hop]
    rw [heq]
    exact Or.inl cleanTrace_nil
  | ok u =>
    rcases hnew : Ahtx0.new env.bus 0x38 0 with ⟨res1, tr1, k1⟩
    have hP1 := new_propagates env.bus 0x38 0
    rw [hnew] at hP1
    cases res1 with
    | error e1 =>
      have heq : read_sensor_internal env = (.error e1, tr1) := by
        simp only [read_sensor_internal, hop, hnew]
      rw [heq]
      exact propagates_congr hP1 (fun e h => by injection h with h2; rw [h2])
    | ok u1 =>
      have htr1 : CleanTrace tr1 :=
        propagates_ok_clean hP1 (fun e h => by injection h)
      rcases hrt : read_temperature_humidity env.bus 0x38 k1 with ⟨res2, tr2, k2⟩
      have hP2 := rt_propagates env.bus 0x38 k1
      rw [hrt] at hP2
      cases res2 with
      | error e2 =>
        have heq : read_sensor_internal env = (.error e2, tr1 ++ tr2) := by
          simp only [read_sensor_internal, hop, hnew, hrt]
        rw [heq]
        exact propagates_seq htr1
          (propagates_congr hP2 (fun e h => by injection h with h2; rw [h2]))
      | ok raw =>
        have htr2 : CleanTrace tr2 :=
          propagates_ok_clean hP2 (fun e h => by injection h)
        have heq : read_sensor_internal env
            = (.ok { temperature := raw.temperature, humidity := raw.humidity,
                     status_code := 0 }, tr1 ++ tr2) := by
          simp only [read_sensor_internal, hop, hnew, hrt]
        rw [heq]
        exact Or.inl (cleanTrace_append htr1 htr2)

/-! ### Temporal ordering: calibration before trigger, not-busy before data read -/

/-- The trace contains no 6-byte data read (successful or failed). -/
def NoSixRead (tr : List Event) : Prop :=
  ∀ ev ∈ tr, ∀ a r, ev ≠ Event.readE a 6 r

/-- The trace contains no trigger-measurement write. -/
def NoTrigger (tr : List Event) : Prop :=
  ∀ ev ∈ tr, ∀ a r, ev ≠ Event.writeE a [0xAC, 0x33, 0x00] r

/-- Every 6-byte data read in the trace is immediately preceded by a
successful 1-byte status read, to the same address, whose byte has bit 7
(busy) clear. -/
def DataReadsGuarded (tr : List Event) : Prop :=
  ∀ (i a : Nat) (r : Except Nat (List Nat)),
    tr[i]? = some (Event.readE a 6 r) →
    ∃ j b, i = j + 1 ∧ tr[j]? = some (Event.readE a 1 (.ok [b]))
      ∧ b &&& 0x80 = 0

/-- Every trigger-measurement write in the trace is preceded (strictly
earlier) by a successful 1-byte status read, to the same address, whose byte
has bit 3 (calibrated) set. -/
def TriggersGuarded (tr : List Event) : Prop :=
  ∀ (i a : Nat) (r : Except Nat Unit),
    tr[i]? = some (Event.writeE a [0xAC, 0x33, 0x00] r) →
    ∃ j b, j < i ∧ tr[j]? = some (Event.readE a 1 (.ok [b]))
      ∧ b &&& 0x08 = 0x08

lemma guarded_of_noSixRead (tr : List Event) (h : NoSixRead tr) :
    DataReadsGuarded tr := by
  intro i a r hi
  exact absurd rfl (h _ (List.getElem?_mem hi) a r)

lemma triggers_of_noTrigger (tr : List Event) (h : NoTrigger tr) :
    TriggersGuarded tr := by
  intro i a r hi
  exact absurd rfl (h _ (List.getElem?_mem hi) a r)

/-- Data-read guardedness survives prepending a trace without 6-byte reads. -/
lemma guarded_append (tr1 tr2 : List Event) (h1 : NoSixRead tr1)
    (h2 : DataReadsGuarded tr2) : DataReadsGuarded (tr1 ++ tr2) := by
  intro i a r hi
  by_cases hlt : i < tr1.length
  · rw [List.getElem?_append_left hlt] at hi
    exact absurd rfl (h1 _ (List.getElem?_mem hi) a r)
  · push_neg at hlt
    rw [List.getElem?_append_right hlt] at hi
    obtain ⟨j, b, hij, hj, hb⟩ := h2 (i - tr1.length) a r hi
    refine ⟨tr1.length + j, b, by omega, ?_, hb⟩
    rw [List.getElem?_append_right (by omega)]
    have hjj : tr1.length + j - tr1.length = j := by omega
    rw [hjj]
    exact hj

/-- Every event of the calibration loop trace is a 1-byte status read or the
10 ms retry delay. -/
lemma cal_loop_events (bus : Bus) (addr : Nat) :
    ∀ n k, ∀ ev ∈ (wait_for_calibration_loop bus addr n k).2.1,
      (∃ r, ev = Event.readE addr 1 r) ∨ ev = Event.delayE 10
  | 0, k, ev, hev => by
    simp [wait_for_calibration_loop] at hev
  | n + 1, k, ev, hev => by
    cases hbk : bus k with
    | nack e =>
      have heq : (wait_for_calibration_loop bus addr (n + 1) k).2.1
          = [.readE addr 1 (.error e)] := by
        simp [wait_for_calibration_loop, status, i2cRead, hbk]
      rw [heq] at hev
      rw [List.mem_singleton] at hev
      exact Or.inl ⟨_, hev⟩
    | ok bytes =>
      have hstat : status bus addr k
          = (.ok ((padRead 1 bytes).headD 0),
             .readE addr 1 (.ok (padRead 1 bytes)), k + 1) := by
        simp [status, i2cRead, hbk]
      by_cases hbit : (padRead 1 bytes).headD 0 &&& 0x08 = 0x08
      · simp only [wait_for_calibration_loop, hstat, if_pos hbit] at hev
        rw [List.mem_singleton] at hev
        exact Or.inl ⟨_, hev⟩
      · simp only [wait_for_calibration_loop, hstat, if_neg hbit] at hev
        rw [List.mem_cons, List.mem_cons] at hev
        rcases hev with hev | hev | hev
        · exact Or.inl ⟨_, hev⟩
        · exact Or.inr hev
        · exact cal_loop_events bus addr n (k + 1) ev hev

/-- Every event of the busy loop trace is a 1-byte status read, the 10 ms
retry delay, or a 6-byte data read. -/
lemma busy_loop_events (bus : Bus) (addr : Nat) :
    ∀ n k, ∀ ev ∈ (busy_loop bus addr n k).2.1,
      (∃ r, ev = Event.readE addr 1 r) ∨ ev = Event.delayE 10
        ∨ ∃ r, ev = Event.readE addr 6 r
  | 0, k, ev, hev => by
    simp [busy_loop] at hev
  | n + 1, k, ev, hev => by
    cases hbk : bus k with
    | nack e =>
      have heq : (busy_loop bus addr (n + 1) k).2.1
          = [.readE addr 1 (.error e)] := by
        simp [busy_loop, status, i2cRead, hbk]
      rw [heq] at hev
      rw [List.mem_singleton] at hev
      exact Or.inl ⟨_, hev⟩
    | ok bytes =>
      have hstat : status bus addr k
          = (.ok ((padRead 1 bytes).headD 0),
             .readE addr 1 (.ok (padRead 1 bytes)), k + 1) := by
        simp [status, i2cRead, hbk]
      by_cases hbit : (padRead 1 bytes).headD 0 &&& 0x80 = 0
      · cases hbk2 : bus (k + 1) with
        | nack e =>
          have heq : (busy_loop bus addr (n + 1) k).2.1
              = [.readE addr 1 (.ok (padRead 1 bytes)),
                 .readE addr 6 (.error e)] := by
            simp only [busy_loop, hstat, if_pos hbit, i2cRead, hbk2]
          rw [heq] at hev
          rw [List.mem_cons, List.mem_singleton] at hev
          rcases hev with hev | hev
          · exact Or.inl ⟨_, hev⟩
          · exact Or.inr (Or.inr ⟨_, hev⟩)
        | ok d =>
          have heq : (busy_loop bus addr (n + 1) k).2.1
              = [.readE addr 1 (.ok (padRead 1 bytes)),
                 .readE addr 6 (.ok (padRead 6 d))] := by
            simp only [busy_loop, hstat, if_pos hbit, i2cRead, hbk2]
          rw [heq] at hev
          rw [List.mem_cons, List.mem_singleton] at hev
          rcases hev with hev | hev
          · exact Or.inl ⟨_, hev⟩
          · exact Or.inr (Or.inr ⟨_, hev⟩)
      · simp only [busy_loop, hstat, if_neg hbit] at hev
        rw [List.mem_cons, List.mem_cons] at hev
        rcases hev with hev | hev | hev
        · exact Or.inl ⟨_, hev⟩
        · exact Or.inr (Or.inl hev)
        · exact busy_loop_events bus addr n (k + 1) ev hev

/-- In the busy loop trace, every 6-byte data read is immediately preceded by
the not-busy status read that allowed it. -/
lemma busy_loop_guarded (bus : Bus) (addr : Nat) :
    ∀ n k, DataReadsGuarded (busy_loop bus addr n k).2.1
  | 0, k => by
    intro i a r hi
    simp [busy_loop] at hi
  | n + 1, k => by
    intro i a r hi
    cases hbk : bus k with
    | nack e =>
      have heq : (busy_loop bus addr (n + 1) k).2.1
          = [.readE addr 1 (.error e)] := by
        simp [busy_loop, status, i2cRead, hbk]
      rw [heq] at hi
      match i with
      | 0 => simp at hi
      | i + 1 => simp at hi
    | ok bytes =>
      have hstat : status bus addr k
          = (.ok ((padRead 1 bytes).headD 0),
             .readE addr 1 (.ok (padRead 1 bytes)), k + 1) := by
        simp [status, i2cRead, hbk]
      by_cases hbit : (padRead 1 bytes).headD 0 &&& 0x80 = 0
      · have hpadeq : padRead 1 bytes = [bytes.getD 0 0 % 256] := rfl
        have hbb : (bytes.getD 0 0 % 256) &&& 0x80 = 0 := hbit
        cases hbk2 : bus (k + 1) with
        | nack e =>
          have heq : (busy_loop bus addr (n + 1) k).2.1
              = [.readE addr 1 (.ok (padRead 1 bytes)),
                 .readE addr 6 (.error e)] := by
            simp only [busy_loop, hstat, if_pos hbit, i2cRead, hbk2]
          rw [heq] at hi
          match i with
          | 0 => simp at hi
          | 1 =>
            rw [List.getElem?_cons_succ, List.getElem?_cons_zero,
              Option.some.injEq] at hi
            obtain ⟨ha, _, _⟩ := Event.readE.inj hi.symm
            refine ⟨0, bytes.getD 0 0 % 256, rfl, ?_, hbb⟩
            rw [heq, List.getElem?_cons_zero, ha, hpadeq]
          | i + 2 => simp at hi
        | ok d =>
          have heq : (busy_loop bus addr (n + 1) k).2.1
              = [.readE addr 1 (.ok (padRead 1 bytes)),
                 .readE addr 6 (.ok (padRead 6 d))] := by
            simp only [busy_loop, hstat, if_pos hbit, i2cRead, hbk2]
          rw [heq] at hi
          match i with
          | 0 => simp at hi
          | 1 =>
            rw [List.getElem?_cons_succ, List.getElem?_cons_zero,
              Option.some.injEq] at hi
            obtain ⟨ha, _, _⟩ := Event.readE.inj hi.symm
            refine ⟨0, bytes.getD 0 0 % 256, rfl, ?_, hbb⟩
            rw [heq, List.getElem?_cons_zero, ha, hpadeq]
          | i + 2 => simp at hi
      · have heq : (busy_loop bus addr (n + 1) k).2.1
            = .readE addr 1 (.ok (padRead 1 bytes)) :: .delayE 10
              :: (busy_loop bus addr n (k + 1)).2.1 := by
          simp only [busy_loop, hstat, if_neg hbit]
        rw [heq] at hi
        match i with
        | 0 => simp at hi
        | 1 => simp at hi
        | i + 2 =>
          rw [List.getElem?_cons_succ, List.getElem?_cons_succ] at hi
          obtain ⟨j, b, hij, hj, hb⟩ := busy_loop_guarded bus addr n (k + 1)
            i a r hi
          refine ⟨j + 2, b, by omega, ?_, hb⟩
          rw [heq, List.getElem?_cons_succ, List.getElem?_cons_succ]
          exact hj

/-- When the calibration loop succeeds, its trace contains a successful
status read whose byte has bit 3 set. -/
lemma cal_loop_success_read (bus : Bus) (addr : Nat) :
    ∀ n k, (wait_for_calibration_loop bus addr n k).1 = .ok () →
      ∃ (j b : Nat), (wait_for_calibration_loop bus addr n k).2.1[j]?
          = some (Event.readE addr 1 (.ok [b])) ∧ b &&& 0x08 = 0x08
  | 0, k, h => by simp [wait_for_calibration_loop] at h
  | n + 1, k, h => by
    cases hbk : bus k with
    | nack e =>
      rw [show (wait_for_calibration_loop bus addr (n + 1) k).1
          = .error (.i2c e) by
        simp [wait_for_calibration_loop, status, i2cRead, hbk]] at h
      cases h
    | ok bytes =>
      have hstat : status bus addr k
          = (.ok ((padRead 1 bytes).headD 0),
             .readE addr 1 (.ok (padRead 1 bytes)), k + 1) := by
        simp [status, i2cRead, hbk]
      have hpadeq : padRead 1 bytes = [bytes.getD 0 0 % 256] := rfl
      by_cases hbit : (padRead 1 bytes).headD 0 &&& 0x08 = 0x08
      · have heq : (wait_for_calibration_loop bus addr (n + 1) k).2.1
            = [.readE addr 1 (.ok (padRead 1 bytes))] := by
          simp only [wait_for_calibration_loop, hstat, if_pos hbit]
        rw [heq]
        exact ⟨0, bytes.getD 0 0 % 256, by rw [List.getElem?_cons_zero, hpadeq],
          hbit⟩
      · have heq : (wait_for_calibration_loop bus addr (n + 1) k).2.1
            = .readE addr 1 (.ok (padRead 1 bytes)) :: .delayE 10
              :: (wait_for_calibration_loop bus addr n (k + 1)).2.1 := by
          simp only [wait_for_calibration_loop, hstat, if_neg hbit]
        have hres : (wait_for_calibration_loop bus addr (n + 1) k).1
            = (wait_for_calibration_loop bus addr n (k + 1)).1 := by
          simp only [wait_for_calibration_loop, hstat, if_neg hbit]
        rw [hres] at h
        obtain ⟨j, b, hj, hb⟩ := cal_loop_success_read bus addr n (k + 1) h
        refine ⟨j + 2, b, ?_, hb⟩
        rw [heq, List.getElem?_cons_succ, List.getElem?_cons_succ]
        exact hj

/-- Every event of the `Ahtx0::new` trace is the 0xBA reset write, the 20 ms
settle delay, a 1-byte status read, or the 10 ms retry delay. -/
lemma new_events (bus : Bus) (addr k : Nat) :
    ∀ ev ∈ (Ahtx0.new bus addr k).2.1,
      (∃ r, ev = Event.writeE addr [0xBA] r) ∨ ev = Event.delayE 20
        ∨ (∃ r, ev = Event.readE addr 1 r) ∨ ev = Event.delayE 10 := by
  intro ev hev
  cases hbk : bus k with
  | nack e =>
    have heq : (Ahtx0.new bus addr k).2.1
        = [.writeE addr [0xBA] (.error e)] := by
      simp only [Ahtx0.new, soft_reset, i2cWrite, hbk]
    rw [heq, List.mem_singleton] at hev
    exact Or.inl ⟨_, hev⟩
  | ok bytes =>
    have heq : (Ahtx0.new bus addr k).2.1
        = Event.writeE addr [0xBA] (.ok ()) :: Event.delayE 20
          :: (wait_for_calibration_loop bus addr 10 (k + 1)).2.1 := by
      simp only [Ahtx0.new, soft_reset, i2cWrite, hbk, wait_for_calibration]
      rfl
    rw [heq, List.mem_cons, List.mem_cons] at hev
    rcases hev with hev | hev | hev
    · exact Or.inl ⟨_, hev⟩
    · exact Or.inr (Or.inl hev)
    · rcases cal_loop_events bus addr 10 (k + 1) ev hev with ⟨r, hr⟩ | hr
      · exact Or.inr (Or.inr (Or.inl ⟨r, hr⟩))
      · exact Or.inr (Or.inr (Or.inr hr))

/-- When `Ahtx0::new` succeeds, its trace contains a successful status read
whose byte has bit 3 (calibrated) set. -/
lemma new_success_read (bus : Bus) (addr k : Nat)
    (h : (Ahtx0.new bus addr k).1 = .ok ()) :
    ∃ (j b : Nat), (Ahtx0.new bus addr k).2.1[j]?
        = some (Event.readE addr 1 (.ok [b])) ∧ b &&& 0x08 = 0x08 := by
  cases hbk : bus k with
  | nack e =>
    rw [show (Ahtx0.new bus addr k).1 = .error (.i2c e) by
      simp only [Ahtx0.new, soft_reset, i2cWrite, hbk]] at h
    cases h
  | ok bytes =>
    have hres : (Ahtx0.new bus addr k).1
        = (wait_for_calibration_loop bus addr 10 (k + 1)).1 := by
      simp only [Ahtx0.new, soft_reset, i2cWrite, hbk, wait_for_calibration]
    have heq : (Ahtx0.new bus addr k).2.1
        = Event.writeE addr [0xBA] (.ok ()) :: Event.delayE 20
          :: (wait_for_calibration_loop bus addr 10 (k + 1)).2.1 := by
      simp only [Ahtx0.new, soft_reset, i2cWrite, hbk, wait_for_calibration]
      rfl
    rw [hres] at h
    obtain ⟨j, b, hj, hb⟩ := cal_loop_success_read bus addr 10 (k + 1) h
    refine ⟨j + 2, b, ?_, hb⟩
    rw [heq, List.getElem?_cons_succ, List.getElem?_cons_succ]
    exact hj

/-- The trace of `read_temperature_humidity` has all its 6-byte data reads
guarded by a not-busy status read. -/
lemma rt_guarded (bus : Bus) (addr k : Nat) :
    DataReadsGuarded (read_temperature_humidity bus addr k).2.1 := by
  cases hbk : bus k with
  | nack e =>
    have heq : (read_temperature_humidity bus addr k).2.1
        = [.writeE addr [0xAC, 0x33, 0x00] (.error e)] := by
      simp only [read_temperature_humidity, i2cWrite, hbk]
    rw [heq]
    refine guarded_of_noSixRead _ ?_
    intro ev hev a r
    rw [List.mem_singleton] at hev
    rw [hev]
    simp
  | ok bytes =>
    have heq : (read_temperature_humidity bus addr k).2.1
        = [Event.writeE addr [0xAC, 0x33, 0x00] (.ok ()), Event.delayE 80]
          ++ (busy_loop bus addr 10 (k + 1)).2.1 := by
      simp only [read_temperature_humidity, i2cWrite, hbk]
      rfl
    rw [heq]
    refine guarded_append _ _ ?_ (busy_loop_guarded bus addr 10 (k + 1))
    intro ev hev a r
    rw [List.mem_cons, List.mem_singleton] at hev
    rcases hev with hev | hev <;> rw [hev] <;> simp

/-- Every trigger write in the `read_temperature_humidity` trace goes to the
driver address. -/
lemma rt_trigger_addr (bus : Bus) (addr k : Nat) :
    ∀ ev ∈ (read_temperature_humidity bus addr k).2.1,
      ∀ (a : Nat) (r : Except Nat Unit),
        ev = Event.writeE a [0xAC, 0x33, 0x00] r → a = addr := by
  intro ev hev a r hw
  cases hbk : bus k with
  | nack e =>
    have heq : (read_temperature_humidity bus addr k).2.1
        = [.writeE addr [0xAC, 0x33, 0x00] (.error e)] := by
      simp only [read_temperature_humidity, i2cWrite, hbk]
    rw [heq, List.mem_singleton] at hev
    rw [hev] at hw
    exact (Event.writeE.inj hw).1.symm
  | ok bytes =>
    have heq : (read_temperature_humidity bus addr k).2.1
        = Event.writeE addr [0xAC, 0x33, 0x00] (.ok ()) :: Event.delayE 80
          :: (busy_loop bus addr 10 (k + 1)).2.1 := by
      simp only [read_temperature_humidity, i2cWrite, hbk]
    rw [heq, List.mem_cons, List.mem_cons] at hev
    rcases hev with hev | hev | hev
    · rw [hev] at hw
      exact (Event.writeE.inj hw).1.symm
    · rw [hev] at hw
      cases hw
    · rcases busy_loop_events bus addr 10 (k + 1) ev hev with ⟨r2, hr⟩ | hr
        | ⟨r2, hr⟩ <;> rw [hr] at hw <;> cases hw

/-- Claim C8: in every run, a 6-byte data read happens only immediately
after a status read reporting the busy bit (bit 7) clear, and the
trigger-measurement write (0xAC, 0x33, 0x00) is issued only after some
status read has confirmed the calibrated bit (bit 3) set. -/
theorem measurement_ordering (env : Env) :
    DataReadsGuarded (read_sensor_internal env).2
      ∧ TriggersGuarded (read_sensor_internal env).2 := by
  cases hop : env.openResult with
  | error e =>
    have heq : read_sensor_internal env = (.error (.i2c e), []) := by
      simp only [read_sensor_internal, hop]
    rw [heq]
    constructor <;> intro i a r hi <;> simp at hi
  | ok u =>
    rcases hnew : Ahtx0.new env.bus 0x38 0 with ⟨res1, tr1, k1⟩
    have hev1 := new_events env.bus 0x38 0
    rw [hnew] at hev1
    have hnosix1 : NoSixRead tr1 := by
      intro ev hev a r
      rcases hev1 ev hev with ⟨r2, h⟩ | h | ⟨r2, h⟩ | h <;> rw [h] <;> simp
    have hnotrig1 : NoTrigger tr1 := by
      intro ev hev a r
      rcases hev1 ev hev with ⟨r2, h⟩ | h | ⟨r2, h⟩ | h <;> rw [h] <;> simp
    cases res1 with
    | error e1 =>
      have heq : read_sensor_internal env = (.error e1, tr1) := by
        simp only [read_sensor_internal, hop, hnew]
      rw [heq]
      exact ⟨guarded_of_noSixRead _ hnosix1, triggers_of_noTrigger _ hnotrig1⟩
    | ok u1 =>
      have hcalread := new_success_read env.bus 0x38 0 (by rw [hnew])
      rw [hnew] at hcalread
      rcases hrt : read_temperature_humidity env.bus 0x38 k1
        with ⟨res2, tr2, k2⟩
      have hg2 := rt_guarded env.bus 0x38 k1
      rw [hrt] at hg2
      have hta := rt_trigger_addr env.bus 0x38 k1
      rw [hrt] at hta
      have heq2 : (read_sensor_internal env).2 = tr1 ++ tr2 := by
        cases res2 <;> simp only [read_sensor_internal, hop, hnew, hrt]
      rw [heq2]
      refine ⟨guarded_append tr1 tr2 hnosix1 hg2, ?_⟩
      intro i a r hi
      obtain ⟨j, b, hj, hb⟩ := hcalread
      have hjlen : j < tr1.length := (List.getElem?_eq_some.mp hj).1
      by_cases hlt : i < tr1.length
      · rw [List.getElem?_append_left hlt] at hi
        exact absurd rfl (hnotrig1 _ (List.getElem?_mem hi) a r)
      · push_neg at hlt
        rw [List.getElem?_append_right hlt] at hi
        have ha : a = 0x38 := hta _ (List.getElem?_mem hi) a r rfl
        refine ⟨j, b, by omega, ?_, hb⟩
        rw [List.getElem?_append_left hjlen, ha]
        exact hj

/-! ### FFI boundary -/

/-- A successful internal read always carries status code 0. -/
lemma internal_ok_status (env : Env) (r : SensorReading)
    (h : (read_sensor_internal env).1 = .ok r) : r.status_code = 0 := by
  cases hop : env.openResult with
  | error e =>
    rw [show (read_sensor_internal env).1 = .error (.i2c e) by
      simp only [read_sensor_internal, hop]] at h
    cases h
  | ok u =>
    rcases hnew : Ahtx0.new env.bus 0x38 0 with ⟨res1, tr1, k1⟩
    cases res1 with
    | error e1 =>
      rw [show (read_sensor_internal env).1 = .error e1 by
        simp only [read_sensor_internal, hop, hnew]] at h
      cases h
    | ok u1 =>
      rcases hrt : read_temperature_humidity env.bus 0x38 k1
        with ⟨res2, tr2, k2⟩
      cases res2 with
      | error e2 =>
        rw [show (read_sensor_internal env).1 = .error e2 by
          simp only [read_sensor_internal, hop, hnew, hrt]] at h
        cases h
      | ok raw =>
        rw [show (read_sensor_internal env).1
            = .ok { temperature := raw.temperature, humidity := raw.humidity,
                    status_code := 0 } by
          simp only [read_sensor_internal, hop, hnew, hrt]] at h
        injection h with h2
        rw [← h2]

/-- Claim C10: every `InternalError` — communication error, calibration
failure or busy timeout alike — is collapsed by the FFI entry point to the
single sentinel record `{temperature: 1000.0, humidity: 1000.0,
status_code: -1}`, and on success the FFI entry point returns the internal
measurement unchanged, whose status code is 0. -/
theorem ffi_error_mapping (env : Env) :
    (∀ e : InternalError, sensorReadingOfResult (.error e)
        = { temperature := 1000, humidity := 1000, status_code := -1 })
      ∧ (∀ e : InternalError, (read_sensor_internal env).1 = .error e →
          read_ahtx0_sensor env
            = { temperature := 1000, humidity := 1000, status_code := -1 })
      ∧ (∀ r : SensorReading, (read_sensor_internal env).1 = .ok r →
          read_ahtx0_sensor env = r ∧ r.status_code = 0) := by
  refine ⟨fun e => rfl, fun e h => ?_, fun r h => ?_⟩
  · simp only [read_ahtx0_sensor, h]
    rfl
  · refine ⟨?_, internal_ok_status env r h⟩
    simp only [read_ahtx0_sensor, h]
    rfl

/-- Witness for `ffi_error_mapping`: a run whose device open fails (error
collapsed to the sentinel) and a fully successful run (measurement passed
through with status code 0). -/
theorem ffi_error_mapping_witness :
    (sensorReadingOfResult (.error .calibrationFailed)
        = { temperature := 1000, humidity := 1000, status_code := -1 })
      ∧ (read_ahtx0_sensor { openResult := .error 7, bus := fun _ => .ok [] }
          = { temperature := 1000, humidity := 1000, status_code := -1 })
      ∧ (read_ahtx0_sensor
            { openResult := .ok ()
              bus := fun k =>
                [Reply.ok [], Reply.ok [8], Reply.ok [], Reply.ok [0],
                 Reply.ok [0x1C, 0x80, 0x00, 0x00, 0x80, 0x00]].getD k
                  (Reply.ok [8]) }
          = { temperature := (RawSensorData.from_raw_bytes
                (padRead 6 [0x1C, 0x80, 0x00, 0x00, 0x80, 0x00])).temperature,
              humidity := (RawSensorData.from_raw_bytes
                (padRead 6 [0x1C, 0x80, 0x00, 0x00, 0x80, 0x00])).humidity,
              status_code := 0 }
          ∧ ({ temperature := (RawSensorData.from_raw_bytes
                (padRead 6 [0x1C, 0x80, 0x00, 0x00, 0x80, 0x00])).temperature,
               humidity := (RawSensorData.from_raw_bytes
                (padRead 6 [0x1C, 0x80, 0x00, 0x00, 0x80, 0x00])).humidity,
               status_code := 0 } : SensorReading).status_code = 0) :=
  ⟨(ffi_error_mapping { openResult := .error 7, bus := fun _ => .ok [] }).1
      .calibrationFailed,
   (ffi_error_mapping { openResult := .error 7, bus := fun _ => .ok [] }).2.1
      (.i2c 7) rfl,
   (ffi_error_mapping
      { openResult := .ok ()
        bus := fun k =>
          [Reply.ok [], Reply.ok [8], Reply.ok [], Reply.ok [0],
           Reply.ok [0x1C, 0x80, 0x00, 0x00, 0x80, 0x00]].getD k
            (Reply.ok [8]) }).2.2
      { temperature := (RawSensorData.from_raw_bytes
          (padRead 6 [0x1C, 0x80, 0x00, 0x00, 0x80, 0x00])).temperature,
        humidity := (RawSensorData.from_raw_bytes
          (padRead 6 [0x1C, 0x80, 0x00, 0x00, 0x80, 0x00])).humidity,
        status_code := 0 } rfl⟩
